import Mathlib

/-!
Shallow embedding of the CsvToJson batch conversion pipeline
(`src/lib.rs`) together with proofs checking the natural-language
specification against it.

Modelling conventions:
  * Rust `String` is Lean `String`; byte-slicing in `build_json_line`
    removes the final `','` or `'{'`, both one byte, so removing the last
    character is an exact model.
  * A Rust `panic!` / `.unwrap()` failure is modelled by `Option.none`
    or `Except.error`: a function that can panic returns an `Option` /
    `Except` and every caller propagates the failure.
  * The filesystem is a partial map from path strings to already-parsed
    CSV files; a row the `csv` crate fails to parse is an
    `Except.error` entry in `rows`.
  * `HashMap<String,String>` built from an iterator of pairs keeps the
    last value inserted for a key; it is modelled by the pair list plus
    last-occurrence lookup (`hmGet`).
-/

/-- Escaping applied by `build_json_line` to keys and values: models
Rust `str::replace("\"", "\\\"")`, i.e. every `'"'` becomes `'\\'` `'"'`. -/
def escChars : List Char → List Char
  | [] => []
  | c :: cs => if c = '"' then '\\' :: '"' :: escChars cs else c :: escChars cs

/-- String-level wrapper for `escChars`. -/
def esc (s : String) : String := String.mk (escChars s.data)

/-- Lookup in the `HashMap<String,String>` model: the map is the pair
list it was collected from, and the last pair inserted for a key wins. -/
def hmGet (m : List (String × String)) (k : String) : Option String :=
  (m.reverse.find? (fun p => p.1 == k)).map Prod.snd

/-- One key/value segment pushed by the loop of `build_json_line`:
`'"'`, escaped key, `"\":\""`, escaped value, `'"'` (the trailing comma
is appended by `fieldsCat`). -/
def kvSeg (h v : String) : String := "\"" ++ esc h ++ "\":\"" ++ esc v ++ "\""

/-- The loop of `build_json_line` (`for h in &header`): concatenates one
comma-terminated segment per header position, and panics (`none`) when
`record.get(h)` is `None` (the `.unwrap()` on line 51 of `lib.rs`). -/
def fieldsCat (m : List (String × String)) : List String → Option String
  | [] => some ""
  | h :: t =>
    match hmGet m h, fieldsCat m t with
    | some v, some rest => some (kvSeg h v ++ "," ++ rest)
    | _, _ => none

/-- Removal of the last character, modelling `line[0..line.len() - 1]`
(the removed byte is always `','` or `'{'`, single-byte characters). -/
def dropLastChar (s : String) : String := String.mk s.data.dropLast

/-- Model of `build_json_line(record, header)`: builds `"{"` plus one
`"key":"value",` segment per header position, drops the final character
(intended: the trailing comma) and appends `"}\n"`.  Returns `none` when
a header key is missing from the record (the code panics there). -/
def build_json_line (m : List (String × String)) (header : List String) :
    Option String :=
  match fieldsCat m header with
  | none => none
  | some body => some (dropLastChar ("\x7b" ++ body) ++ "\x7d\n")

/-- JSON values at the granularity the specification talks about. -/
inductive JVal where
  | str (s : String)
  | num (n : Int)
  | null
deriving DecidableEq

/-- Reference rendering of a JSON value (strings escaped like the code
escapes them). -/
def renderVal : JVal → String
  | JVal.str s => "\"" ++ esc s ++ "\""
  | JVal.num n => toString n
  | JVal.null => "null"

/-- Comma-separated concatenation (no trailing comma). -/
def commaSep : List String → String
  | [] => ""
  | [s] => s
  | s :: t => s ++ "," ++ commaSep t

/-- Reference rendering of a JSON object given its fields in order. -/
def renderObj (fields : List (String × JVal)) : String :=
  "\x7b" ++ commaSep (fields.map (fun p => "\"" ++ esc p.1 ++ "\":" ++ renderVal p.2)) ++ "\x7d"

/-- Looking up every header name in the record, all-or-nothing. -/
def lookupAll (m : List (String × String)) : List String → Option (List String)
  | [] => some []
  | h :: t =>
    match hmGet m h, lookupAll m t with
    | some v, some vs => some (v :: vs)
    | _, _ => none

-- Sanity check values used while developing (kept as plain examples).
example : build_json_line [("test-key", "test-value")] ["test-key"] =
    some "\x7b\"test-key\":\"test-value\"\x7d\n" := by decide

example : build_json_line [("k", "test\"-value")] ["k"] =
    some "\x7b\"k\":\"test\\\"-value\"\x7d\n" := by decide

/-! ### String-level helper lemmas -/

theorem str_eq_of_data {a b : String} (h : a.data = b.data) : a = b := by
  cases a; cases b; cases h; rfl

theorem str_data_append (a b : String) : (a ++ b).data = a.data ++ b.data := rfl

/-- Concatenation of segments each followed by a comma (the raw text the
loop of `build_json_line` accumulates after the opening brace). -/
def catComma : List String → String
  | [] => ""
  | s :: t => s ++ "," ++ catComma t

theorem dropLast_catComma :
    ∀ (t : List String) (s a : String),
      dropLastChar (a ++ catComma (s :: t)) = a ++ commaSep (s :: t)
  | [], s, a => by
      have h1 : a ++ catComma [s] = (a ++ s) ++ "," := by
        apply str_eq_of_data; simp [catComma, str_data_append]
      rw [h1]
      apply str_eq_of_data
      show ((a ++ s).data ++ [',']).dropLast = (a ++ commaSep [s]).data
      rw [List.dropLast_concat]
      simp [commaSep, str_data_append]
  | s' :: t', s, a => by
      have h1 : a ++ catComma (s :: s' :: t') =
          (a ++ (s ++ ",")) ++ catComma (s' :: t') := by
        apply str_eq_of_data; simp [catComma, str_data_append]
      rw [h1, dropLast_catComma t' s' (a ++ (s ++ ","))]
      apply str_eq_of_data
      simp [commaSep, str_data_append]

theorem fieldsCat_renders (m : List (String × String)) :
    ∀ (hs vs : List String), lookupAll m hs = some vs →
      fieldsCat m hs = some (catComma ((hs.zip vs).map (fun p => kvSeg p.1 p.2)))
  | [], vs, hl => by
      simp only [lookupAll] at hl
      cases hl
      simp [fieldsCat, catComma]
  | h :: t, vs, hl => by
      simp only [lookupAll] at hl
      cases hv : hmGet m h with
      | none => rw [hv] at hl; cases hl
      | some v =>
        rw [hv] at hl
        cases hlt : lookupAll m t with
        | none => rw [hlt] at hl; cases hl
        | some vt =>
          rw [hlt] at hl
          cases hl
          simp only [fieldsCat]
          rw [hv, fieldsCat_renders m t vt hlt]
          simp only [List.zip_cons_cons, List.map_cons, catComma]
          apply congrArg
          apply str_eq_of_data
          simp [str_data_append, List.zip]

theorem kvSeg_render (k v : String) :
    "\"" ++ esc k ++ "\":" ++ renderVal (JVal.str v) = kvSeg k v := by
  apply str_eq_of_data
  simp [kvSeg, renderVal, str_data_append]

/-- Central rendering lemma: on a nonempty header whose every name is
present in the record, `build_json_line` produces exactly the reference
rendering of the JSON object whose fields are the raw row texts as JSON
Strings, followed by a newline. -/
theorem build_json_line_renders (m : List (String × String))
    (hs vs : List String) (hne : hs ≠ [])
    (hl : lookupAll m hs = some vs) :
    build_json_line m hs =
      some (renderObj ((hs.zip vs).map (fun p => (p.1, JVal.str p.2))) ++ "\n") := by
  cases hs with
  | nil => exact absurd rfl hne
  | cons h t =>
    simp only [lookupAll] at hl
    cases hv : hmGet m h with
    | none => rw [hv] at hl; cases hl
    | some v =>
      rw [hv] at hl
      cases hlt : lookupAll m t with
      | none => rw [hlt] at hl; cases hl
      | some vt =>
        rw [hlt] at hl
        cases hl
        have hfc : lookupAll m (h :: t) = some (v :: vt) := by
          simp only [lookupAll]; rw [hv, hlt]
        rw [show build_json_line m (h :: t) =
            (match fieldsCat m (h :: t) with
             | none => none
             | some body => some (dropLastChar ("\x7b" ++ body) ++ "\x7d\n")) from rfl]
        rw [fieldsCat_renders m (h :: t) (v :: vt) hfc]
        simp only [List.zip_cons_cons, List.map_cons]
        rw [dropLast_catComma ((t.zip vt).map (fun p => kvSeg p.1 p.2)) (kvSeg h v) "\x7b"]
        apply congrArg
        have hmap : ∀ (l : List (String × String)),
            (l.map (fun p => (p.1, JVal.str p.2))).map
              (fun p => "\"" ++ esc p.1 ++ "\":" ++ renderVal p.2)
            = l.map (fun p => kvSeg p.1 p.2) := by
          intro l
          induction l with
          | nil => rfl
          | cons x xs ih => simp only [List.map_cons, ih, kvSeg_render]
        rw [renderObj, List.map_cons, ← hmap (t.zip vt)]
        simp only [List.map_cons]
        rw [kvSeg_render h v]
        apply str_eq_of_data
        simp [str_data_append]

/-! ### Filesystem, reader and writers -/

/-- Model of the `ApplicationOptions` struct of `lib.rs` (fields
`input`, `output`, `quiet`). -/
structure ApplicationOptions where
  input : String
  output : String
  quiet : Bool
deriving DecidableEq

instance {ε α : Type} [DecidableEq ε] [DecidableEq α] : DecidableEq (Except ε α) :=
  fun a b =>
    match a, b with
    | Except.ok x, Except.ok y =>
      if h : x = y then Decidable.isTrue (by rw [h])
      else Decidable.isFalse (fun hc => h (Except.ok.inj hc))
    | Except.error x, Except.error y =>
      if h : x = y then Decidable.isTrue (by rw [h])
      else Decidable.isFalse (fun hc => h (Except.error.inj hc))
    | Except.ok _, Except.error _ => Decidable.isFalse (fun hc => Except.noConfusion hc)
    | Except.error _, Except.ok _ => Decidable.isFalse (fun hc => Except.noConfusion hc)

/-- One CSV file as the `csv` crate hands it to `read_data`: the header
record plus the data records; a record the crate fails to parse is an
`Except.error` carrying its error message. -/
structure CsvFile where
  header : List String
  rows : List (Except String (List String))
deriving DecidableEq

/-- The filesystem visible to the program: a partial map from path
strings to parsed CSV files (`none` = no such file / unreadable). -/
def FS : Type := String → Option CsvFile

/-- The record construction inside `read_data`:
`header.iter().zip(record.iter()).collect::<HashMap<_,_>>()` — the zip
stops at the shorter sequence, so extra row values are dropped and a
short row yields a map missing the later header keys. -/
def rowToRecord (header row : List String) : List (String × String) :=
  header.zip row

/-- The `collect::<Result<Vec<_>,_>>()` over the row iterator: the first
row-parse error aborts the whole collection with that error. -/
def collectRows (header : List String) :
    List (Except String (List String)) → Except String (List (List (String × String)))
  | [] => Except.ok []
  | Except.error e :: _ => Except.error e
  | Except.ok row :: rest =>
    match collectRows header rest with
    | Except.error e => Except.error e
    | Except.ok data => Except.ok (rowToRecord header row :: data)

/-- Model of `read_data`: panics (`Except.error`) when the input path
does not exist (`Path::exists` check plus `Reader::from_path` unwrap) and
when any row fails to parse (`collect::<Result<_,_>>().unwrap()`);
otherwise returns all records plus the header. -/
def read_data (fs : FS) (input : String) :
    Except String (List (List (String × String)) × List String) :=
  match fs input with
  | none => Except.error ("No such file: " ++ input)
  | some f =>
    match collectRows f.header f.rows with
    | Except.error e => Except.error e
    | Except.ok data => Except.ok (data, f.header)

/-- The shared emission loop of `run_to_stdout` / `run_to_file`: the
concatenation of `build_json_line` outputs in row order (`none` models a
panic inside `build_json_line`). -/
def emitLines (header : List String) :
    List (List (String × String)) → Option String
  | [] => some ""
  | record :: rest =>
    match build_json_line record header, emitLines header rest with
    | some line, some out => some (line ++ out)
    | _, _ => none

/-- Model of `run_to_stdout`: everything printed to standard output. -/
def run_to_stdout (data : List (List (String × String)))
    (header : List String) : Option String :=
  emitLines header data

/-- Model of `run_to_file`: the full byte content written to the output
file (`none` models a panic while building a line). -/
def run_to_file (data : List (List (String × String)))
    (header : List String) : Option String :=
  emitLines header data

/-- The stdout branch of `run` (no `*` in the input, empty output):
`read_data` followed by `run_to_stdout`; the result is the text printed
to stdout, or the panic that aborted the program. -/
def run_stdout_unit (fs : FS) (input : String) : Except String String :=
  match read_data fs input with
  | Except.error e => Except.error e
  | Except.ok (data, header) =>
    match run_to_stdout data header with
    | none => Except.error "missing key in record"
    | some out => Except.ok out

/-- Model of `process(options)`: `read_data` then `run_to_file`; returns
the content written to `options.output`, or the panic message. -/
def process (fs : FS) (options : ApplicationOptions) : Except String String :=
  match read_data fs options.input with
  | Except.error e => Except.error e
  | Except.ok (data, header) =>
    match run_to_file data header with
    | none => Except.error "missing key in record"
    | some content => Except.ok content

/-- The drain loop of `run_files_channel` (`for e in r.try_iter()`):
units are consumed sequentially in channel (discovery) order; the result
is the list of `(output path, content)` pairs actually written, plus the
panic message if one unit panicked — a panic aborts the loop, so later
units are never consumed. -/
def runUnits (fs : FS) :
    List ApplicationOptions → List (String × String) × Option String
  | [] => ([], none)
  | u :: t =>
    match process fs u with
    | Except.error e => ([], some e)
    | Except.ok content =>
      ((u.output, content) :: (runUnits fs t).1, (runUnits fs t).2)

/-! ### Path resolver -/

/-- Splitting a character list at every occurrence of a separator
(`str::split` semantics: `n` separators yield `n+1` pieces). -/
def splitChar (sep : Char) : List Char → List (List Char)
  | [] => [[]]
  | c :: cs =>
    match splitChar sep cs with
    | [] => if c = sep then [[], []] else [[c]]
    | g :: gs => if c = sep then [] :: g :: gs else (c :: g) :: gs

/-- Joining character-list pieces with a separator character. -/
def joinChar (sep : Char) : List (List Char) → List Char
  | [] => []
  | [x] => x
  | x :: xs => x ++ sep :: joinChar sep xs

/-- Leftmost non-overlapping replacement of every occurrence of `pat`
by `rep`, modelling Rust `str::replace` (the patterns used are never
empty). -/
def replaceChars (pat rep : List Char) : Nat → List Char → List Char
  | 0, src => src
  | fuel + 1, src =>
    if pat ≠ [] ∧ src.take pat.length = pat then
      rep ++ replaceChars pat rep fuel (src.drop pat.length)
    else
      match src with
      | [] => []
      | c :: cs => c :: replaceChars pat rep fuel cs

/-- String-level `str::replace`. -/
def replaceStr (s pat rep : String) : String :=
  String.mk (replaceChars pat.data rep.data s.data.length s.data)

/-- The final path segment (`split(MAIN_SEPARATOR).last()`), with
`MAIN_SEPARATOR = '/'`. -/
def lastSegment (s : String) : String :=
  String.mk ((splitChar '/' s.data).getLastD [])

/-- `Path::file_stem` and `Path::extension` of a file name: the portion
before / after the last `'.'`; a name with no `'.'`, or a leading-dot
name like `.gitignore`, has no extension. -/
def stemExt (fname : String) : String × Option String :=
  match splitChar '.' fname.data with
  | [] => ("", none)
  | [s] => (String.mk s, none)
  | [[], s] => (String.mk ('.' :: s), none)
  | parts =>
    (String.mk (joinChar '.' parts.dropLast), some (String.mk (parts.getLastD [])))

/-- Model of `to_absolute(option, path)`: strips `"/" ++ last segment of
the input pattern` from the pattern, then appends `/stem.ext` of the
matched path's file name; `none` models the `unwrap` panics when the
file name has no extension. -/
def to_absolute (option : ApplicationOptions) (path : String) : Option String :=
  let last := lastSegment option.input
  let pre := replaceStr option.input ("/" ++ last) ""
  let fname := lastSegment path
  match stemExt fname with
  | (_, none) => none
  | (stem, some ext) => some (pre ++ "/" ++ stem ++ "." ++ ext)

/-- The per-entry body of the discovery loop of `run_files_channel`:
clones the options, patches `input` via `to_absolute`, and derives
`output` — `"{path}.json"` when no output was configured, otherwise
`"{output}/{path}.json"`. -/
def mkUnit (options : ApplicationOptions) (path : String) :
    Option ApplicationOptions :=
  match to_absolute options path with
  | none => none
  | some inp =>
    some { input := inp,
           output := if options.output = "" then path ++ ".json"
                     else options.output ++ "/" ++ path ++ ".json",
           quiet := options.quiet }

/-- Discovery: each glob entry either resolved to a path (`Except.ok`)
or failed (`Except.error`, printed and skipped by the loop). -/
def discover (entries : List (Except String String)) : List String :=
  entries.filterMap Except.toOption

/-- Building the `files_to_process` vector: `mkUnit` on every discovered
path; `none` models a `to_absolute` panic inside the loop (which aborts
the program before any unit is processed). -/
def mkUnits (options : ApplicationOptions) :
    List String → Option (List ApplicationOptions)
  | [] => some []
  | p :: ps =>
    match mkUnit options p, mkUnits options ps with
    | some u, some us => some (u :: us)
    | _, _ => none

/-- Model of `run_files_channel`: discovery (skipping failed entries),
unit construction, then the sequential channel drain. -/
def run_files_channel (fs : FS) (options : ApplicationOptions)
    (entries : List (Except String String)) :
    Option (List (String × String) × Option String) :=
  match mkUnits options (discover entries) with
  | none => none
  | some units => some (runUnits fs units)

/-! ### Concrete fixtures -/

/-- Filesystem holding only `a.csv` with header `id,name` and the rows
`1,Alice` and `2,Bob`. -/
def fsAB : FS := fun s =>
  if s = "a.csv" then
    some ⟨["id", "name"], [Except.ok ["1", "Alice"], Except.ok ["2", "Bob"]]⟩
  else none

/-- Filesystem holding only `b.csv` (header `k`, single row `v`). -/
def fsB : FS := fun s =>
  if s = "b.csv" then some ⟨["k"], [Except.ok ["v"]]⟩ else none

/-- Filesystem where `c.csv` has a malformed second row, and `d.csv` is
well-formed. -/
def fsCD : FS := fun s =>
  if s = "c.csv" then
    some ⟨["k"], [Except.ok ["1"], Except.error "bad row", Except.ok ["3"]]⟩
  else if s = "d.csv" then some ⟨["k"], [Except.ok ["v"]]⟩
  else none

/-- Processing unit for `a.csv`. -/
def unitA : ApplicationOptions := ⟨"a.csv", "a.csv.json", false⟩

/-- Processing unit for `b.csv`. -/
def unitB : ApplicationOptions := ⟨"b.csv", "b.csv.json", false⟩

/-- Processing unit for `c.csv`. -/
def unitC : ApplicationOptions := ⟨"c.csv", "c.csv.json", false⟩

/-- Processing unit for `d.csv`. -/
def unitD : ApplicationOptions := ⟨"d.csv", "d.csv.json", false⟩

example : run_stdout_unit fsAB "a.csv" =
    Except.ok "\x7b\"id\":\"1\",\"name\":\"Alice\"\x7d\n\x7b\"id\":\"2\",\"name\":\"Bob\"\x7d\n" := by
  rfl

example : process fsB unitB = Except.ok "\x7b\"k\":\"v\"\x7d\n" := by rfl

example : runUnits fsB [unitA, unitB] = ([], some "No such file: a.csv") := by rfl

/-! ### Auxiliary lemmas for the claims -/

theorem zip_take_right (l1 : List String) :
    ∀ l2 : List String, l1.zip l2 = l1.zip (l2.take l1.length) := by
  induction l1 with
  | nil => intro l2; rfl
  | cons a t ih =>
    intro l2
    cases l2 with
    | nil => rfl
    | cons b bt => simp [List.zip_cons_cons, List.length_cons, List.take, ih bt]

theorem fieldsCat_none (m : List (String × String)) :
    ∀ (header : List String) (h : String), h ∈ header → hmGet m h = none →
      fieldsCat m header = none := by
  intro header
  induction header with
  | nil => intro h hm; cases hm
  | cons h' t ih =>
    intro h hm hget
    cases hm with
    | head => simp only [fieldsCat, hget]
    | tail _ hmem =>
      have ht := ih h hmem hget
      simp only [fieldsCat, ht]
      cases hmGet m h' <;> rfl

theorem collectRows_error (header : List String) :
    ∀ (rows : List (Except String (List String))) (e : String),
      Except.error e ∈ rows → ∃ msg, collectRows header rows = Except.error msg := by
  intro rows
  induction rows with
  | nil => intro e he; cases he
  | cons r rest ih =>
    intro e he
    cases r with
    | error e' => exact ⟨e', rfl⟩
    | ok row =>
      cases he with
      | tail _ hmem =>
        obtain ⟨msg, hm⟩ := ih e hmem
        exact ⟨msg, by simp only [collectRows, hm]⟩

/-! ### Claim C1 -/

/-- C1 counterexample: for the record `id ↦ "1"` (raw text `"1"` parses
as the JSON number 1), the emitted object renders the field as the JSON
String `"1"`, which differs from the rendering with the JSON Number 1 —
so a numeric-looking field is emitted as a String, refuting the claim
that auto mode emits it as a Number. -/
theorem c1_counterexample :
    build_json_line [("id", "1")] ["id"] =
      some (renderObj [("id", JVal.str "1")] ++ "\n") ∧
    renderObj [("id", JVal.str "1")] ≠ renderObj [("id", JVal.num 1)] := by
  constructor
  · rfl
  · decide

/-- C1 amended: `build_json_line` performs no numeric inference at all —
for every record and nonempty header whose names are all present, each
field is emitted as a JSON String holding the raw text, even when that
text parses as a JSON number; there is no auto mode in the code. -/
theorem c1_amended (m : List (String × String)) (hs vs : List String)
    (hne : hs ≠ []) (hl : lookupAll m hs = some vs) :
    build_json_line m hs =
      some (renderObj ((hs.zip vs).map (fun p => (p.1, JVal.str p.2))) ++ "\n") :=
  build_json_line_renders m hs vs hne hl

/-- C1 witness: the amended theorem applied to the record `x ↦ y`. -/
theorem c1_witness :
    build_json_line [("x", "y")] ["x"] =
      some (renderObj ((["x"].zip ["y"]).map (fun p => (p.1, JVal.str p.2))) ++ "\n") :=
  c1_amended [("x", "y")] ["x"] ["y"] (by decide) (by rfl)

/-! ### Claim C2 -/

/-- C2 counterexample: for the concrete input (header `id,name`, rows
`1,Alice` and `2,Bob`, no output path) the text printed to stdout is not
the JSON array the claim promises. -/
theorem c2_counterexample :
    run_stdout_unit fsAB "a.csv" ≠
      Except.ok "[\x7b\"id\":\"1\",\"name\":\"Alice\"\x7d,\x7b\"id\":\"2\",\"name\":\"Bob\"\x7d]" := by
  decide

/-- C2 amended: the output is not a JSON array — no `[`, no `]`, no
comma separators; each row object is printed followed by a newline, so
for the concrete input stdout is exactly
`{"id":"1","name":"Alice"}\n{"id":"2","name":"Bob"}\n`. -/
theorem c2_amended :
    run_stdout_unit fsAB "a.csv" =
      Except.ok "\x7b\"id\":\"1\",\"name\":\"Alice\"\x7d\n\x7b\"id\":\"2\",\"name\":\"Bob\"\x7d\n" :=
  rfl

/-! ### Claim C4 -/

/-- C4 counterexample: `c.csv` has rows `ok, error, ok`; `read_data`
aborts with the row error instead of skipping it — no row of the file is
translated, refuting "the remaining rows are still translated". -/
theorem c4_counterexample :
    read_data fsCD "c.csv" = Except.error "bad row" := rfl

/-- C4 amended: a malformed row mid-stream is not skipped: the
`collect::<Result<_,_>>().unwrap()` in `read_data` panics on the first
row-parse error, aborting the unit with no rows translated at all. -/
theorem c4_amended (fs : FS) (input : String) (f : CsvFile) (e : String)
    (hf : fs input = some f) (he : Except.error e ∈ f.rows) :
    ∃ msg, read_data fs input = Except.error msg := by
  obtain ⟨msg, hm⟩ := collectRows_error f.header f.rows e he
  exact ⟨msg, by simp only [read_data, hf, hm]⟩

/-- C4 witness: the amended theorem applied to `c.csv` of `fsCD`. -/
theorem c4_witness : ∃ msg, read_data fsCD "c.csv" = Except.error msg :=
  c4_amended fsCD "c.csv"
    ⟨["k"], [Except.ok ["1"], Except.error "bad row", Except.ok ["3"]]⟩
    "bad row" (by decide) (by decide)

/-! ### Claim C5 -/

/-- C5 counterexample: header `a,b` with the short row `x`: the record
built by `read_data` lacks the key `b`, and `build_json_line` panics on
the missing key (modelled as `none`) instead of emitting `b` as the
empty string. -/
theorem c5_counterexample :
    build_json_line (rowToRecord ["a", "b"] ["x"]) ["a", "b"] = none := rfl

/-- C5 amended: extra row values beyond the header length are indeed
ignored (the zip truncates them), but a header position with no
corresponding row value is a missing key in the record, and
`build_json_line` panics on it (`record.get(h).unwrap()`) rather than
treating it as the empty string. -/
theorem c5_amended :
    (∀ header row : List String,
        rowToRecord header row = rowToRecord header (row.take header.length)) ∧
    (∀ (m : List (String × String)) (header : List String) (h : String),
        h ∈ header → hmGet m h = none → build_json_line m header = none) := by
  constructor
  · intro header row
    exact zip_take_right header row
  · intro m header h hmem hget
    simp only [build_json_line, fieldsCat_none m header h hmem hget]

/-- C5 witness: both parts of the amended theorem at concrete inputs. -/
theorem c5_witness :
    rowToRecord ["k"] ["v", "w"] = rowToRecord ["k"] (["v", "w"].take ["k"].length) ∧
    build_json_line [("p", "q")] ["z"] = none :=
  ⟨c5_amended.1 ["k"] ["v", "w"],
   c5_amended.2 [("p", "q")] ["z"] "z" (by decide) (by decide)⟩

/-! ### Claim C6 -/

/-- C6 counterexample: header name `score` with an empty raw value is
emitted as the empty JSON String, whose rendering differs from the Null
rendering — so no matching header name makes an empty value Null. -/
theorem c6_counterexample :
    build_json_line [("score", "")] ["score"] =
      some (renderObj [("score", JVal.str "")] ++ "\n") ∧
    renderObj [("score", JVal.str "")] ≠ renderObj [("score", JVal.null)] := by
  constructor
  · rfl
  · decide

/-- C6 amended: there is no selective mode and no Null emission in the
code: for every header name, an empty raw value is emitted as the empty
JSON String. -/
theorem c6_amended (k : String) (m : List (String × String))
    (h : hmGet m k = some "") :
    build_json_line m [k] = some (renderObj [(k, JVal.str "")] ++ "\n") := by
  have hl : lookupAll m [k] = some [""] := by
    simp only [lookupAll, h]
  have hr := build_json_line_renders m [k] [""] (by simp) hl
  simpa using hr

/-- C6 witness: the amended theorem at header name `a`. -/
theorem c6_witness :
    build_json_line [("a", "")] ["a"] = some (renderObj [("a", JVal.str "")] ++ "\n") :=
  c6_amended "a" [("a", "")] (by decide)

/-! ### Claim C3 -/

/-- C3 counterexample: `b.csv` converts successfully on its own, yet in
the batch `[unitA, unitB]` the missing `a.csv` panics first and `unitB`
is never processed — no `b.csv.json` content is produced, refuting "the
other units still run". -/
theorem c3_counterexample :
    (process fsB unitB).isOk = true ∧
    runUnits fsB [unitA, unitB] = ([], some "No such file: a.csv") := by
  constructor
  · rfl
  · rfl

/-- C3 amended: a missing input file is fatal to the whole batch, not
just to its unit: the panic aborts the sequential drain, so outputs
written before the failing unit remain, the failure is surfaced, and no
later unit runs or writes anything. -/
theorem c3_amended (fs : FS) (pre : List ApplicationOptions)
    (u : ApplicationOptions) (post : List ApplicationOptions)
    (hpre : ∀ p ∈ pre, (process fs p).isOk = true)
    (hu : fs u.input = none) :
    ∃ e, runUnits fs (pre ++ u :: post) = ((runUnits fs pre).1, some e) := by
  induction pre with
  | nil =>
    refine ⟨"No such file: " ++ u.input, ?_⟩
    have hp : process fs u = Except.error ("No such file: " ++ u.input) := by
      simp only [process, read_data, hu]
    simp [runUnits, hp]
  | cons p ps ih =>
    have hp := hpre p (List.mem_cons_self p ps)
    obtain ⟨c, hc⟩ : ∃ c, process fs p = Except.ok c := by
      cases hproc : process fs p with
      | ok c => exact ⟨c, rfl⟩
      | error e => rw [hproc] at hp; cases hp
    obtain ⟨e, he⟩ := ih (fun q hq => hpre q (List.mem_cons_of_mem p hq))
    refine ⟨e, ?_⟩
    simp only [List.cons_append, runUnits, hc, List.append_eq, he]

/-- C3 witness: the amended theorem for the batch `[unitB, unitA]` over
`fsB` (where `a.csv` is missing and `b.csv` converts fine). -/
theorem c3_witness :
    ∃ e, runUnits fsB ([unitB] ++ unitA :: []) = ((runUnits fsB [unitB]).1, some e) :=
  c3_amended fsB [unitB] unitA []
    (by intro p hp; rw [List.mem_singleton] at hp; subst hp; rfl)
    (by decide)

/-! ### Claim C7 -/

/-- C7 counterexample: in the batch `[unitC, unitD]` over `fsCD`,
`unitD` would convert successfully on its own, yet after `unitC` panics
on its malformed row the drain stops: only one failure result exists and
`unitD` produces no Conversion Result at all. -/
theorem c7_counterexample :
    (process fsCD unitD).isOk = true ∧
    runUnits fsCD [unitC, unitD] = ([], some "bad row") := by
  constructor
  · rfl
  · rfl

/-- C7 amended: each unit is consumed at most once, in channel order;
when every conversion succeeds each unit yields exactly one written
output and no failure, but the first failing unit aborts the batch, so
the units after it are never consumed and produce no result. -/
theorem c7_amended :
    (∀ (fs : FS) (units : List ApplicationOptions),
        (∀ u ∈ units, (process fs u).isOk = true) →
        (runUnits fs units).1.length = units.length ∧ (runUnits fs units).2 = none) ∧
    (∀ (fs : FS) (u : ApplicationOptions) (post : List ApplicationOptions) (e : String),
        process fs u = Except.error e → runUnits fs (u :: post) = ([], some e)) := by
  constructor
  · intro fs units h
    induction units with
    | nil => exact ⟨rfl, rfl⟩
    | cons u t ih =>
      have hu := h u (List.mem_cons_self u t)
      obtain ⟨c, hc⟩ : ∃ c, process fs u = Except.ok c := by
        cases hproc : process fs u with
        | ok c => exact ⟨c, rfl⟩
        | error e => rw [hproc] at hu; cases hu
      have iht := ih (fun q hq => h q (List.mem_cons_of_mem u hq))
      simp [runUnits, hc, iht.1, iht.2]
  · intro fs u post e he
    simp [runUnits, he]

/-- C7 witness: the success half applied to the singleton batch
`[unitB]` over `fsB`. -/
theorem c7_witness :
    (runUnits fsB [unitB]).1.length = [unitB].length ∧
    (runUnits fsB [unitB]).2 = none :=
  c7_amended.1 fsB [unitB]
    (by intro u hu; rw [List.mem_singleton] at hu; subst hu; rfl)

/-! ### Claim C8 -/

/-- C8: output path derivation depends only on the matched path and the
output setting (so deriving twice for the same pair gives the same
path), and with no output setting the derived path is the input path
with `.json` appended to its final segment, in the input's directory. -/
theorem c8_theorem :
    (∀ (o1 o2 : ApplicationOptions) (p : String) (u1 u2 : ApplicationOptions),
        o1.output = o2.output → mkUnit o1 p = some u1 → mkUnit o2 p = some u2 →
        u1.output = u2.output) ∧
    (∀ (opts : ApplicationOptions) (dir base : String) (u : ApplicationOptions),
        opts.output = "" → mkUnit opts (dir ++ "/" ++ base) = some u →
        u.output = dir ++ "/" ++ (base ++ ".json")) := by
  constructor
  · intro o1 o2 p u1 u2 ho h1 h2
    unfold mkUnit at h1 h2
    cases ha1 : to_absolute o1 p with
    | none => rw [ha1] at h1; cases h1
    | some i1 =>
      rw [ha1] at h1
      cases ha2 : to_absolute o2 p with
      | none => rw [ha2] at h2; cases h2
      | some i2 =>
        rw [ha2] at h2
        cases h1
        cases h2
        simp only [ho]
  · intro opts dir base u hout hm
    unfold mkUnit at hm
    cases ha : to_absolute opts (dir ++ "/" ++ base) with
    | none => rw [ha] at hm; cases hm
    | some i =>
      rw [ha] at hm
      cases hm
      simp only [hout, if_pos]
      apply str_eq_of_data
      simp [str_data_append]

/-- C8 witness: both parts at the matched path `data/a.csv`, with two
configurations that differ in everything but the output setting. -/
theorem c8_witness :
    (⟨"*.csv/a.csv", "data/a.csv.json", false⟩ : ApplicationOptions).output =
      (⟨"data/a.csv", "data/a.csv.json", true⟩ : ApplicationOptions).output ∧
    (⟨"*.csv/a.csv", "data/a.csv.json", false⟩ : ApplicationOptions).output =
      "data" ++ "/" ++ ("a.csv" ++ ".json") :=
  ⟨c8_theorem.1 ⟨"*.csv", "", false⟩ ⟨"data/*.csv", "", true⟩ "data/a.csv"
      ⟨"*.csv/a.csv", "data/a.csv.json", false⟩
      ⟨"data/a.csv", "data/a.csv.json", true⟩ rfl (by decide) (by decide),
   c8_theorem.2 ⟨"*.csv", "", false⟩ "data" "a.csv"
      ⟨"*.csv/a.csv", "data/a.csv.json", false⟩ rfl (by decide)⟩

/-! ### Claim C9 -/

/-- C9: a failed glob entry anywhere in the discovery sequence is
skipped without affecting the batch: the run over entries containing the
failure equals the run with the failure removed, so every remaining
discovered unit is still converted and the error is never fatal. -/
theorem c9_theorem (fs : FS) (options : ApplicationOptions)
    (l1 l2 : List (Except String String)) (e : String) :
    run_files_channel fs options (l1 ++ Except.error e :: l2) =
      run_files_channel fs options (l1 ++ l2) := by
  unfold run_files_channel
  have hd : discover (l1 ++ Except.error e :: l2) = discover (l1 ++ l2) := by
    simp [discover, List.filterMap_append, List.filterMap_cons, Except.toOption]
  rw [hd]

/-! ### Claim C10 -/

/-- C10: for the empty header, `build_json_line` strips the opening
brace instead of a trailing comma: the result is `"}\n"`, which is not
the empty object `"{}\n"` and is not the rendering of any JSON object. -/
theorem c10_theorem :
    (∀ m : List (String × String), build_json_line m [] = some "\x7d\n") ∧
    (∀ fields : List (String × JVal), renderObj fields ++ "\n" ≠ "\x7d\n") ∧
    ("\x7d\n" : String) ≠ "\x7b\x7d\n" := by
  refine ⟨fun m => rfl, ?_, by decide⟩
  intro fields h
  have hh : some '\x7b' = some '\x7d' := congrArg (fun s => s.data.head?) h
  exact absurd (Option.some.inj hh) (by decide)

/-- C10 witness: the empty-header output and the object-rendering
inequality at concrete inputs. -/
theorem c10_witness :
    build_json_line [("q", "r")] [] = some "\x7d\n" ∧
    renderObj [] ++ "\n" ≠ "\x7d\n" :=
  ⟨c10_theorem.1 [("q", "r")], c10_theorem.2.1 []⟩
